import Mathlib

/-!
Verification of the weekly-ETF dashboard comparison engine (scraper.py).

The Python source is shallowly embedded: numeric values are modelled as
rationals, nullable values as `Option`, and Python exceptions as
`Except.error`.  Calendar dates are modelled by `CivDate` together with the
standard civil-from-days conversion, so that `(d1 - d2).days` becomes a
difference of epoch-day numbers.
-/

/-- A Gregorian calendar date, as produced by `date.fromisoformat`. -/
structure CivDate where
  year : ℕ
  month : ℕ
  day : ℕ
deriving DecidableEq

/-- Gregorian leap-year test. -/
def isLeap (y : ℕ) : Bool := (y % 4 == 0 && y % 100 != 0) || y % 400 == 0

/-- Number of days in a month of a given year. -/
def daysInMonth (y m : ℕ) : ℕ :=
  if m = 2 then (if isLeap y then 29 else 28)
  else if m = 4 ∨ m = 6 ∨ m = 9 ∨ m = 11 then 30 else 31

/-- Value of a decimal digit character, `none` for non-digits. -/
def digitVal (c : Char) : Option ℕ :=
  if c.isDigit then some (c.toNat - 48) else none

/-- Embedding of `date.fromisoformat` on the canonical `YYYY-MM-DD` form:
returns `none` exactly where Python raises `ValueError`. -/
def parseISO (s : String) : Option CivDate :=
  match s.data with
  | [y1, y2, y3, y4, h1, m1, m2, h2, d1, d2] =>
    if h1 = '-' ∧ h2 = '-' then
      match digitVal y1, digitVal y2, digitVal y3, digitVal y4,
            digitVal m1, digitVal m2, digitVal d1, digitVal d2 with
      | some a, some b, some c, some d, some e, some f, some g, some h =>
        let y := 1000 * a + 100 * b + 10 * c + d
        let m := 10 * e + f
        let dd := 10 * g + h
        if 1 ≤ y ∧ 1 ≤ m ∧ m ≤ 12 ∧ 1 ≤ dd ∧ dd ≤ daysInMonth y m then
          some ⟨y, m, dd⟩
        else none
      | _, _, _, _, _, _, _, _ => none
    else none
  | _ => none

/-- Days since 1970-01-01 (civil-from-days algorithm); date subtraction in
Python (`(a - b).days`) is the difference of these numbers. -/
def toDays (d : CivDate) : ℤ :=
  let y := if d.month ≤ 2 then d.year - 1 else d.year
  let era := y / 400
  let yoe := y % 400
  let mp := (d.month + 9) % 12
  let doy := (153 * mp + 2) / 5 + d.day - 1
  let doe := yoe * 365 + yoe / 4 - yoe / 100 + doy
  (era * 146097 + doe : ℤ) - 719468

example : toDays ⟨1970, 1, 1⟩ = 0 := by decide
example : toDays ⟨2024, 1, 15⟩ - toDays ⟨2024, 1, 10⟩ = 5 := by decide
example : parseISO ("not-a-date") = none := by decide
example : parseISO ("2024-01-05") = some ⟨2024, 1, 5⟩ := by decide

/-- Code-point lexicographic comparison of character lists: the order Python
uses to compare strings. -/
def listLeB : List Char → List Char → Bool
  | [], _ => true
  | _ :: _, [] => false
  | a :: as, b :: bs =>
    if a.toNat < b.toNat then true
    else if b.toNat < a.toNat then false
    else listLeB as bs

/-- Python string comparison `a <= b` (code-point lexicographic). -/
def strLeB (a b : String) : Bool := listLeB a.data b.data

/-- Embedding of `pct_change` (scraper.py): null inputs and a zero prior
value give null, otherwise the relative change in percent. -/
def pct_change (new old : Option ℚ) : Option ℚ :=
  match new, old with
  | some n, some o => if o = 0 then none else some ((n - o) / o * 100)
  | _, _ => none

/-- Embedding of `clamp` (scraper.py) over the reals. -/
def clampR (x lo hi : ℝ) : ℝ := max lo (min hi x)

/-- Python `round(x, n)` over the rationals (ties are immaterial for every
input considered here). -/
def roundq (n : ℕ) (x : ℚ) : ℚ := (round (x * 10 ^ n) : ℤ) / 10 ^ n

/-- Python `round(x, 1)` over the reals. -/
noncomputable def roundTo1 (x : ℝ) : ℝ := ((round (x * 10) : ℤ) : ℝ) / 10

/-- Mean of a list of rationals (`statistics.mean`). -/
def meanQ (l : List ℚ) : ℚ := l.sum / l.length

/-- Population variance (`statistics.pstdev` squared). -/
def pvarQ (l : List ℚ) : ℚ := ((l.map fun x => (x - meanQ l) ^ 2).sum) / l.length

/-- Number of adjacent pairs that strictly decrease (the `cuts` loop). -/
def cutCount (l : List ℚ) : ℕ :=
  (l.zip l.tail).countP fun p => decide (p.2 < p.1)

/-- Cut rate `cuts / (len - 1)` as a real. -/
noncomputable def cutRateR (l : List ℚ) : ℝ :=
  (cutCount l : ℝ) / ((l.length : ℝ) - 1)

/-- Coefficient of variation `pstdev / mean` as a real. -/
noncomputable def cvR (l : List ℚ) : ℝ :=
  Real.sqrt (pvarQ l) / (meanQ l : ℝ)

/-- Embedding of `stability_score_from_dist` (scraper.py). -/
noncomputable def stability_score_from_dist (dists : List (Option ℚ)) : Option ℝ :=
  let ds := dists.filterMap id
  if ds.length < 4 then none
  else if meanQ ds ≤ 0 then none
  else some (roundTo1 (clampR (100 - 60 * cutRateR ds - 80 * cvR ds) 0 100))

/-- Embedding of `trend_slope` (scraper.py): two-point slope of the
non-null values, denominator `len(vals) - 1` over the non-null count. -/
def trend_slope (values : List (Option ℚ)) : Option ℚ :=
  let vals := values.filterMap id
  if vals.length < 4 then none
  else some ((vals.getLastD 0 - vals.headD 0) / ((vals.length : ℚ) - 1))

example : trend_slope [some 1, none, none, none, some 2, some 3, some 4, some 5] = some 1 := by
  simp [trend_slope, List.filterMap]
  norm_num

/-- A timeline entry for one ticker, as built by `compute_ex_div_comparisons`
from one history snapshot. -/
structure Row where
  run_date : String
  ex_div : Option String
  price : Option ℚ
  dist : Option ℚ
  nav : Option ℚ
deriving DecidableEq

/-- One item of a history snapshot (the fields the comparison engine reads). -/
structure HistItem where
  ticker : String
  frequency : Option String
  ex_dividend_date : Option String
  price_proxy : Option ℚ
  distribution_per_share : Option ℚ
  nav_official : Option ℚ
deriving DecidableEq

/-- One history snapshot file. -/
structure Snapshot where
  generated_at : String
  items : List HistItem
deriving DecidableEq

/-- Python `str.lower`, character by character (the frequency strings are
ASCII, where Python and Lean lowercase agree). -/
def lowerStr (s : String) : String := (s.data.map Char.toLower).asString

/-- The frequency filter of `compute_ex_div_comparisons`:
`str(it.get("frequency","")).lower() != "weekly"` skips the record. -/
def isWeekly (freq : Option String) : Bool := lowerStr (freq.getD ("")) == ("weekly")

/-- The timeline row built from a snapshot item (`run_date` is the first 10
characters of `generated_at`). -/
def rowOf (s : Snapshot) (it : HistItem) : Row :=
  ⟨s.generated_at.take 10, it.ex_dividend_date, it.price_proxy,
    it.distribution_per_share, it.nav_official⟩

/-- The timeline of one ticker over the loaded snapshots, in snapshot order,
keeping only records whose frequency lowercases to "weekly". -/
def timelineFor (t : String) (snaps : List Snapshot) : List Row :=
  snaps.flatMap fun s =>
    (s.items.filter fun it => it.ticker == t && isWeekly it.frequency).map (rowOf s)

/-- Python truthiness of the `ex_div` field: `None` and `""` are falsy. -/
def truthyStr : Option String → Bool
  | none => false
  | some s => s != ("")

/-- The ten derived fields the engine may set on a current item. -/
structure Derived where
  days_since_ex_div : Option ℤ
  price_chg_ex_1w_pct : Option ℚ
  dist_chg_ex_1w_pct : Option ℚ
  nav_chg_ex_1w_pct : Option ℚ
  price_chg_ex_1m_pct : Option ℚ
  dist_chg_ex_1m_pct : Option ℚ
  nav_chg_ex_1m_pct : Option ℚ
  dist_stability_score : Option ℝ
  dist_sum_8w : Option ℚ
  dist_slope_8w : Option ℚ

/-- The state of a skipped ticker: no derived field is ever set. -/
def nullDerived : Derived :=
  ⟨none, none, none, none, none, none, none, none, none, none⟩

/-- Embedding of `find_prior` as it scans an explicit list (instantiated with
`reversed(rows[:-1])`); an unparseable `ex_div` raises, i.e. yields
`Except.error`, exactly as `date.fromisoformat` does. -/
def findPrior (latestExD daysBack : ℤ) : List Row → Except String (Option Row)
  | [] => Except.ok none
  | r :: rest =>
    match parseISO (r.ex_div.getD ("")) with
    | none => Except.error ("ValueError")
    | some ex =>
      if |latestExD - toDays ex - daysBack| ≤ 3 then Except.ok (some r)
      else findPrior latestExD daysBack rest

/-- The run-date order used to sort the timeline (Python stable sort on the
`run_date` string). -/
def sortRows (l : List Row) : List Row :=
  l.insertionSort fun a b => strLeB a.run_date b.run_date = true

/-- Distributions of the last 8 distinct ex-dividend dates (the `by_ex`
dictionary keyed by `ex_div`, later rows overwriting earlier, keys sorted). -/
def last8Dists (rows : List Row) : List (Option ℚ) :=
  let keys := (rows.filterMap Row.ex_div).dedup
  let sortedKeys := keys.insertionSort fun a b => strLeB a b = true
  let last8 := sortedKeys.drop (sortedKeys.length - 8)
  last8.map fun d => ((rows.filter fun r => r.ex_div == some d).getLast?).bind Row.dist

/-- The record of derived fields written for a ticker that passes all guards. -/
noncomputable def mkDerived (today latestExD : ℤ) (latest : Row)
    (prevW prevM : Option Row) (lastDists : List (Option ℚ)) : Derived where
  days_since_ex_div := some (today - latestExD)
  price_chg_ex_1w_pct := prevW.bind fun p => pct_change latest.price p.price
  dist_chg_ex_1w_pct := prevW.bind fun p => pct_change latest.dist p.dist
  nav_chg_ex_1w_pct := prevW.bind fun p => pct_change latest.nav p.nav
  price_chg_ex_1m_pct := prevM.bind fun p => pct_change latest.price p.price
  dist_chg_ex_1m_pct := prevM.bind fun p => pct_change latest.dist p.dist
  nav_chg_ex_1m_pct := prevM.bind fun p => pct_change latest.nav p.nav
  dist_stability_score := stability_score_from_dist lastDists
  dist_sum_8w :=
    if 4 ≤ (lastDists.filterMap id).length
    then some (roundq 4 (lastDists.filterMap id).sum) else none
  dist_slope_8w := (trend_slope lastDists).map (roundq 6)

/-- Embedding of the per-ticker body of `compute_ex_div_comparisons`:
`Except.error` models a Python exception escaping the loop, `Except.ok
nullDerived` models the `continue` paths that leave every field unset. -/
noncomputable def computeExDiv (today : ℤ) (rows0 : List Row) : Except String Derived :=
  if rows0.isEmpty then Except.ok nullDerived else
  let rows := (sortRows rows0).filter fun r => truthyStr r.ex_div
  if rows.length < 2 then Except.ok nullDerived else
  match rows.getLast? with
  | none => Except.ok nullDerived
  | some latest =>
    match parseISO (latest.ex_div.getD ("")) with
    | none => Except.error ("ValueError")
    | some latestEx =>
      let latestExD := toDays latestEx
      match findPrior latestExD 7 rows.dropLast.reverse with
      | Except.error e => Except.error e
      | Except.ok prevW =>
        match findPrior latestExD 30 rows.dropLast.reverse with
        | Except.error e => Except.error e
        | Except.ok prevM =>
          Except.ok (mkDerived today latestExD latest prevW prevM (last8Dists rows))

/-- The alert-drop threshold constant `ALERT_DROP_PCT`. -/
def ALERT_DROP_PCT : ℚ := -15

/-- An annotated current item, as read by `generate_alerts`. -/
structure AnnItem where
  ticker : String
  ex_dividend_date : Option String
  dist_chg_ex_1w_pct : Option ℚ
  dist_chg_ex_1m_pct : Option ℚ
deriving DecidableEq

/-- One alert record (the `message` string, a pure formatting of the other
fields, is not modelled). -/
structure Alert where
  ticker : String
  type : String
  pct : ℚ
  ex_dividend_date : Option String
deriving DecidableEq

/-- The alerts contributed by one item: at most one `DIVIDEND_DROP_VS_1W`
and one `DIVIDEND_DROP_VS_1M`. -/
def alertsFor (it : AnnItem) : List Alert :=
  (match it.dist_chg_ex_1w_pct with
   | some w =>
     if w ≤ ALERT_DROP_PCT then
       [⟨it.ticker, ("DIVIDEND_DROP_VS_1W"), roundq 2 w, it.ex_dividend_date⟩]
     else []
   | none => []) ++
  (match it.dist_chg_ex_1m_pct with
   | some m =>
     if m ≤ ALERT_DROP_PCT then
       [⟨it.ticker, ("DIVIDEND_DROP_VS_1M"), roundq 2 m, it.ex_dividend_date⟩]
     else []
   | none => [])

/-- Embedding of `generate_alerts` (scraper.py). -/
def generate_alerts (items : List AnnItem) : List Alert := items.flatMap alertsFor

/-- The deduplication key named by the spec. -/
def alertKey (a : Alert) : String × String × Option String :=
  (a.ticker, a.type, a.ex_dividend_date)

/-- The `days_since_ex_div` field of a non-raising run, `none` on a raise. -/
def daysField : Except String Derived → Option ℤ
  | Except.ok d => d.days_since_ex_div
  | Except.error _ => none

/-- Anchor selection as the spec words it: the greatest `ex_div_date`
(in epoch days) over the ticker's timeline entries. -/
def specGreatestExDivDays (rows : List Row) : Option ℤ :=
  (((rows.filterMap Row.ex_div).filterMap parseISO).map toDays).max?

/-- C1: with two qualifying entries whose anchor `ex_div` string is truthy
but not a parseable ISO date, the per-ticker computation raises (models the
unguarded `date.fromisoformat` call), instead of skipping the ticker as the
spec requires. -/
theorem compute_raises_on_malformed_anchor :
    computeExDiv 0
        [⟨("2024-01-01"), some ("2024-01-05"), none, none, none⟩,
         ⟨("2024-01-02"), some ("not-a-date"), none, none, none⟩] =
      Except.error ("ValueError") ∧
    parseISO ("not-a-date") = none := by
  exact ⟨rfl, rfl⟩

/-- C2 counterexample: the engine anchors on the entry with the greatest
`run_date`, not the greatest `ex_div_date`; here the anchor's ex-div date is
2024-01-03 (days since: 12) while the greatest ex-div date is 2024-01-10
(days since: 5). -/
theorem anchor_not_greatest_ex_div_cex :
    daysField (computeExDiv (toDays ⟨2024, 1, 15⟩)
        [⟨("2024-01-01"), some ("2024-01-10"), none, none, none⟩,
         ⟨("2024-01-02"), some ("2024-01-03"), none, none, none⟩]) = some 12 ∧
    specGreatestExDivDays
        [⟨("2024-01-01"), some ("2024-01-10"), none, none, none⟩,
         ⟨("2024-01-02"), some ("2024-01-03"), none, none, none⟩] =
      some (toDays ⟨2024, 1, 10⟩) ∧
    toDays ⟨2024, 1, 15⟩ - toDays ⟨2024, 1, 10⟩ = 5 ∧ (12 : ℤ) ≠ 5 := by
  refine ⟨by decide, by decide, by decide, by decide⟩

/-- C6: percentage change is `(new - old) / old * 100` when both values are
present and the prior is nonzero, and null when either value is null or the
prior is exactly zero. -/
theorem pct_change_spec :
    (∀ n o : ℚ, o ≠ 0 → pct_change (some n) (some o) = some ((n - o) / o * 100)) ∧
    (∀ n : ℚ, pct_change (some n) (some 0) = none) ∧
    (∀ o : Option ℚ, pct_change none o = none) ∧
    (∀ n : Option ℚ, pct_change n none = none) := by
  refine ⟨fun n o h => by simp [pct_change, h], fun n => by simp [pct_change],
    fun o => by cases o <;> rfl, fun n => by cases n <;> rfl⟩

/-- C6 witness: a 10% rise from 100 to 110. -/
theorem pct_change_spec_witness :
    pct_change (some (110 : ℚ)) (some 100) = some 10 := by
  have h := pct_change_spec.1 110 100 (by norm_num)
  rw [h]; norm_num

/-- C3 counterexample: on the 8-slot window `[1, _, _, _, 2, 3, 4, 5]` the
code divides by the non-null count minus 1 (giving slope 1), not by the full
window span minus 1 (which would give `round(4/7, 6) = 0.571429`). -/
theorem slope_denominator_cex :
    (trend_slope [some 1, none, none, none, some 2, some 3, some 4, some 5]).map (roundq 6) =
      some 1 ∧
    roundq 6 (((5 : ℚ) - 1) / ((8 : ℚ) - 1)) = 571429 / 1000000 ∧
    (1 : ℚ) ≠ 571429 / 1000000 := by
  refine ⟨?_, ?_, by norm_num⟩
  · simp [trend_slope, List.filterMap]
    norm_num [roundq, round_eq]
  · norm_num [roundq, round_eq]

/-- C3 amended: `dist_slope_8w` is `round((last_non_null - first_non_null) /
(non_null_count - 1), 6)` — the denominator is the count of non-null values
minus 1, not the full window span; it is null with fewer than 4 non-null
values. -/
theorem trend_slope_amended :
    (∀ (w : List (Option ℚ)) (a b : ℚ),
        4 ≤ (w.filterMap id).length →
        (w.filterMap id).head? = some a →
        (w.filterMap id).getLast? = some b →
        trend_slope w = some ((b - a) / (((w.filterMap id).length : ℚ) - 1))) ∧
    (∀ w : List (Option ℚ), (w.filterMap id).length < 4 → trend_slope w = none) ∧
    (∀ (today lExD : ℤ) (latest : Row) (prevW prevM : Option Row) (ld : List (Option ℚ)),
        (mkDerived today lExD latest prevW prevM ld).dist_slope_8w =
          (trend_slope ld).map (roundq 6)) := by
  refine ⟨fun w a b h4 ha hb => ?_, fun w h => ?_, fun _ _ _ _ _ _ => rfl⟩
  · simp only [trend_slope]
    rw [if_neg (by omega)]
    rw [List.getLastD_eq_getLast?, List.headD_eq_head?, ha, hb]
    rfl
  · simp only [trend_slope]
    rw [if_pos h]

/-- C3 amended witness: slope of `[1, _, _, _, 2, 3, 4, 5]` is `(5 - 1) /
(5 - 1) = 1`. -/
theorem trend_slope_amended_witness :
    trend_slope [some 1, none, none, none, some 2, some 3, some 4, some 5] = some 1 := by
  have h := trend_slope_amended.1
    [some 1, none, none, none, some 2, some 3, some 4, some 5] 1 5
    (by decide) (by decide) (by decide)
  rw [h]
  norm_num [List.filterMap]

/-- C4: the stability score is null with fewer than 4 non-null values or a
non-positive mean; otherwise it is `round(clamp(100 - 60 * cut_rate -
80 * cv, 0, 100), 1)`; four identical positive values score exactly 100. -/
theorem stability_score_spec :
    (∀ dists : List (Option ℚ),
        (dists.filterMap id).length < 4 ∨ meanQ (dists.filterMap id) ≤ 0 →
        stability_score_from_dist dists = none) ∧
    (∀ dists : List (Option ℚ),
        4 ≤ (dists.filterMap id).length → 0 < meanQ (dists.filterMap id) →
        stability_score_from_dist dists =
          some (roundTo1 (clampR
            (100 - 60 * cutRateR (dists.filterMap id) - 80 * cvR (dists.filterMap id))
            0 100))) ∧
    (∀ q : ℚ, 0 < q →
        stability_score_from_dist [some q, some q, some q, some q] = some 100) := by
  refine ⟨fun dists h => ?_, fun dists h4 hm => ?_, fun q hq => ?_⟩
  · simp only [stability_score_from_dist]
    by_cases hl : (dists.filterMap id).length < 4
    · rw [if_pos hl]
    · rcases h with h | h
      · exact absurd h hl
      · rw [if_neg hl, if_pos h]
  · simp only [stability_score_from_dist]
    rw [if_neg (by omega), if_neg (not_le.mpr hm)]
  · have hds : ([some q, some q, some q, some q] : List (Option ℚ)).filterMap id =
        [q, q, q, q] := by simp
    have hmean : meanQ [q, q, q, q] = q := by
      simp [meanQ]
      ring
    have hvar : pvarQ [q, q, q, q] = 0 := by
      simp [pvarQ, hmean]
    have hcut : cutCount [q, q, q, q] = 0 := by
      simp [cutCount, List.countP, List.countP.go, lt_irrefl]
    have hcv : cvR [q, q, q, q] = 0 := by
      simp [cvR, hvar]
    have hcr : cutRateR [q, q, q, q] = 0 := by
      simp [cutRateR, hcut]
    simp only [stability_score_from_dist, hds]
    rw [if_neg (by norm_num), if_neg (by rw [hmean]; exact not_le.mpr hq)]
    rw [hcv, hcr]
    norm_num [clampR]
    rw [roundTo1, show ((100 : ℝ) * 10) = ((1000 : ℤ) : ℝ) by norm_num, round_intCast]
    norm_num

/-- C4 witness: four identical positive distributions score exactly 100. -/
theorem stability_score_spec_witness :
    stability_score_from_dist [some 1, some 1, some 1, some 1] = some 100 :=
  stability_score_spec.2.2 1 (by norm_num)


/-- The alerts of one item, characterized: a 1W alert for a qualifying weekly
drop, a 1M alert for a qualifying monthly drop, nothing else. -/
theorem mem_alertsFor (it : AnnItem) (a : Alert) :
    a ∈ alertsFor it ↔
      ((∃ w, it.dist_chg_ex_1w_pct = some w ∧ w ≤ ALERT_DROP_PCT ∧
          a = ⟨it.ticker, ("DIVIDEND_DROP_VS_1W"), roundq 2 w, it.ex_dividend_date⟩) ∨
       (∃ m, it.dist_chg_ex_1m_pct = some m ∧ m ≤ ALERT_DROP_PCT ∧
          a = ⟨it.ticker, ("DIVIDEND_DROP_VS_1M"), roundq 2 m, it.ex_dividend_date⟩)) := by
  unfold alertsFor
  cases hw : it.dist_chg_ex_1w_pct <;> cases hm : it.dist_chg_ex_1m_pct <;>
    simp only [List.mem_append, List.mem_singleton, List.not_mem_nil] <;>
    (try split_ifs) <;> simp_all

/-- C8: `generate_alerts` flat-maps the per-item alert rule; an item yields a
`DIVIDEND_DROP_VS_1W` alert exactly when `dist_chg_ex_1w_pct` is non-null and
at most the threshold, a `DIVIDEND_DROP_VS_1M` alert exactly when
`dist_chg_ex_1m_pct` is non-null and at most the threshold (so a ticker can
produce zero, one or both types), and the -15 boundary is inclusive while
-14.99 does not fire. -/
theorem alerts_threshold_spec :
    (∀ items : List AnnItem, generate_alerts items = items.flatMap alertsFor) ∧
    (∀ it : AnnItem,
      ((∃ a ∈ alertsFor it, a.type = ("DIVIDEND_DROP_VS_1W")) ↔
        (∃ w, it.dist_chg_ex_1w_pct = some w ∧ w ≤ ALERT_DROP_PCT))) ∧
    (∀ it : AnnItem,
      ((∃ a ∈ alertsFor it, a.type = ("DIVIDEND_DROP_VS_1M")) ↔
        (∃ m, it.dist_chg_ex_1m_pct = some m ∧ m ≤ ALERT_DROP_PCT))) ∧
    ((-15 : ℚ) ≤ ALERT_DROP_PCT ∧ ¬ ((-1499 / 100 : ℚ) ≤ ALERT_DROP_PCT)) := by
  refine ⟨fun items => rfl, fun it => ?_, fun it => ?_,
    by norm_num [ALERT_DROP_PCT], by norm_num [ALERT_DROP_PCT]⟩
  · constructor
    · rintro ⟨a, ha, hty⟩
      rcases (mem_alertsFor it a).mp ha with ⟨w, hw, hle, _⟩ | ⟨m, hm, hle, heq1⟩
      · exact ⟨w, hw, hle⟩
      · rw [heq1] at hty
        simp at hty
    · rintro ⟨w, hw, hle⟩
      exact ⟨⟨it.ticker, ("DIVIDEND_DROP_VS_1W"), roundq 2 w, it.ex_dividend_date⟩,
        (mem_alertsFor it _).mpr (Or.inl ⟨w, hw, hle, rfl⟩), rfl⟩
  · constructor
    · rintro ⟨a, ha, hty⟩
      rcases (mem_alertsFor it a).mp ha with ⟨w, hw, hle, heq2⟩ | ⟨m, hm, hle, _⟩
      · rw [heq2] at hty
        simp at hty
      · exact ⟨m, hm, hle⟩
    · rintro ⟨m, hm, hle⟩
      exact ⟨⟨it.ticker, ("DIVIDEND_DROP_VS_1M"), roundq 2 m, it.ex_dividend_date⟩,
        (mem_alertsFor it _).mpr (Or.inr ⟨m, hm, hle, rfl⟩), rfl⟩

/-- C8 witness: a drop of exactly -15 percent fires a 1W alert at the
default threshold. -/
theorem alerts_threshold_spec_witness :
    ∃ a ∈ alertsFor ⟨("AAAW"), none, some (-15), none⟩,
      a.type = ("DIVIDEND_DROP_VS_1W") :=
  (alerts_threshold_spec.2.1 ⟨("AAAW"), none, some (-15), none⟩).mpr
    ⟨-15, rfl, by norm_num [ALERT_DROP_PCT]⟩

/-- C9 counterexample: `generate_alerts` performs no deduplication, so the
accumulated result of invoking it twice on the same records contains the
same `(ticker, type, ex_dividend_date)` key twice. -/
theorem alerts_not_deduplicated_cex :
    ¬ (((generate_alerts [⟨("AAAW"), some ("2024-01-05"), some (-20), none⟩]) ++
        generate_alerts [⟨("AAAW"), some ("2024-01-05"), some (-20), none⟩]).map
          alertKey).Nodup := by
  intro h
  have : ((generate_alerts [⟨("AAAW"), some ("2024-01-05"), some (-20), none⟩]) ++
      generate_alerts [⟨("AAAW"), some ("2024-01-05"), some (-20), none⟩]).map alertKey =
      [(("AAAW"), ("DIVIDEND_DROP_VS_1W"), some ("2024-01-05")),
       (("AAAW"), ("DIVIDEND_DROP_VS_1W"), some ("2024-01-05"))] := by
    simp [generate_alerts, alertsFor, alertKey, ALERT_DROP_PCT]
    norm_num
    rfl
  rw [this] at h
  simp at h

/-- Every alert an item contributes carries that item's ticker. -/
theorem alertsFor_ticker {it : AnnItem} {a : Alert} (ha : a ∈ alertsFor it) :
    a.ticker = it.ticker := by
  rcases (mem_alertsFor it a).mp ha with ⟨w, _, _, h⟩ | ⟨m, _, _, h⟩ <;> rw [h]

/-- One item's alerts have pairwise distinct keys (the two possible alerts
differ in their `type`). -/
theorem key_nodup_alertsFor (it : AnnItem) : ((alertsFor it).map alertKey).Nodup := by
  unfold alertsFor
  cases it.dist_chg_ex_1w_pct <;> cases it.dist_chg_ex_1m_pct <;> dsimp only <;>
    (try split_ifs) <;> simp_all [alertKey]

/-- Every generated alert's ticker comes from the input records. -/
theorem mem_generate_ticker {items : List AnnItem} {a : Alert}
    (ha : a ∈ generate_alerts items) : a.ticker ∈ items.map AnnItem.ticker := by
  rcases List.mem_flatMap.mp ha with ⟨it, hit, hmem⟩
  rw [alertsFor_ticker hmem]
  exact List.mem_map_of_mem _ hit

/-- C9 amended: `generate_alerts` deduplicates nothing, but it is a pure
function of its input, and one invocation on records with pairwise distinct
tickers yields no duplicate `(ticker, type, ex_dividend_date)` keys;
accumulating repeated invocations, however, duplicates every alert. -/
theorem alerts_nodup_amended (items : List AnnItem)
    (h : (items.map AnnItem.ticker).Nodup) :
    ((generate_alerts items).map alertKey).Nodup := by
  induction items with
  | nil => simp [generate_alerts]
  | cons it rest ih =>
    simp only [List.map_cons, List.nodup_cons] at h
    have hg : generate_alerts (it :: rest) = alertsFor it ++ generate_alerts rest := rfl
    rw [hg, List.map_append]
    refine List.Nodup.append (key_nodup_alertsFor it) (ih h.2) ?_
    intro k hk1 hk2
    rcases List.mem_map.mp hk1 with ⟨a, ha, hka⟩
    rcases List.mem_map.mp hk2 with ⟨b, hb, hkb⟩
    have h1 : a.ticker = it.ticker := alertsFor_ticker ha
    have h2 : b.ticker ∈ rest.map AnnItem.ticker := mem_generate_ticker hb
    have : a.ticker = b.ticker := by
      have := hka.trans hkb.symm
      exact congrArg Prod.fst this
    rw [h1] at this
    rw [← this] at h2
    exact h.1 h2

/-- C9 amended witness: two records with distinct tickers, three alerts, no
duplicate keys. -/
theorem alerts_nodup_amended_witness :
    ((generate_alerts
        [⟨("AAAW"), some ("2024-01-05"), some (-20), none⟩,
         ⟨("BBBW"), some ("2024-01-05"), some (-20), some (-20)⟩]).map alertKey).Nodup :=
  alerts_nodup_amended _ (by decide)

/-- C10: a history record enters a ticker's timeline exactly when its ticker
matches and its frequency string lowercases to "weekly" — so "weekly",
"Weekly" and "WEEKLY" all qualify and the match is case-insensitive. -/
theorem weekly_filter_case_insensitive :
    (∀ f : String, isWeekly (some f) = true ↔ lowerStr f = ("weekly")) ∧
    (isWeekly (some ("WEEKLY")) = true ∧ isWeekly (some ("Weekly")) = true ∧
      isWeekly (some ("weekly")) = true ∧ isWeekly (some ("Monthly")) = false ∧
      isWeekly none = false) ∧
    (∀ (t : String) (snaps : List Snapshot) (r : Row),
      r ∈ timelineFor t snaps ↔
        ∃ s ∈ snaps, ∃ it ∈ s.items,
          it.ticker = t ∧ isWeekly it.frequency = true ∧ r = rowOf s it) := by
  refine ⟨fun f => ?_, ⟨by decide, by decide, by decide, by decide, by decide⟩,
    fun t snaps r => ?_⟩
  · simp [isWeekly]
  · simp only [timelineFor, List.mem_flatMap, List.mem_map, List.mem_filter,
      Bool.and_eq_true, beq_iff_eq]
    constructor
    · rintro ⟨s, hs, it, ⟨hit, htk, hwk⟩, hr⟩
      exact ⟨s, hs, it, hit, htk, hwk, hr.symm⟩
    · rintro ⟨s, hs, it, hit, htk, hwk, hr⟩
      exact ⟨s, hs, it, ⟨hit, htk, hwk⟩, hr.symm⟩

/-- C10 witness: an upper-case "WEEKLY" record qualifies. -/
theorem weekly_filter_case_insensitive_witness :
    isWeekly (some ("WEEKLY")) = true :=
  (weekly_filter_case_insensitive.1 ("WEEKLY")).mpr (by decide)

/-- A timeline entry matching the `days_back` window around the anchor. -/
def priorMatch (latestExD daysBack : ℤ) (r : Row) : Prop :=
  ∃ ex, parseISO (r.ex_div.getD ("")) = some ex ∧ |latestExD - toDays ex - daysBack| ≤ 3

/-- C5: `find_prior` returns the first scanned entry within ±3 days of the
`days_back` offset (the scan list being the reversed timeline without the
anchor, i.e. reverse chronological order), returns nothing when no entry
matches, and a missing prior leaves all three of that period's
percentage-change fields null. -/
theorem find_prior_spec (latestExD daysBack : ℤ) :
    (∀ (l : List Row) (r : Row),
        findPrior latestExD daysBack l = Except.ok (some r) →
        priorMatch latestExD daysBack r ∧
        ∃ pre post, l = pre ++ r :: post ∧
          ∀ x ∈ pre, ¬ priorMatch latestExD daysBack x) ∧
    (∀ l : List Row,
        findPrior latestExD daysBack l = Except.ok none →
        ∀ x ∈ l, ¬ priorMatch latestExD daysBack x) ∧
    (∀ (today lExD : ℤ) (latest : Row) (prevM : Option Row) (ld : List (Option ℚ)),
        (mkDerived today lExD latest none prevM ld).price_chg_ex_1w_pct = none ∧
        (mkDerived today lExD latest none prevM ld).dist_chg_ex_1w_pct = none ∧
        (mkDerived today lExD latest none prevM ld).nav_chg_ex_1w_pct = none) ∧
    (∀ (today lExD : ℤ) (latest : Row) (prevW : Option Row) (ld : List (Option ℚ)),
        (mkDerived today lExD latest prevW none ld).price_chg_ex_1m_pct = none ∧
        (mkDerived today lExD latest prevW none ld).dist_chg_ex_1m_pct = none ∧
        (mkDerived today lExD latest prevW none ld).nav_chg_ex_1m_pct = none) := by
  refine ⟨?_, ?_, fun _ _ _ _ _ => ⟨rfl, rfl, rfl⟩, fun _ _ _ _ _ => ⟨rfl, rfl, rfl⟩⟩
  · intro l
    induction l with
    | nil => intro r h; exact absurd h (by simp [findPrior])
    | cons r0 rest ih =>
      intro r h
      simp only [findPrior] at h
      cases hp : parseISO (r0.ex_div.getD ("")) with
      | none =>
        rw [hp] at h
        exact absurd h (by simp)
      | some ex =>
        rw [hp] at h
        dsimp only at h
        by_cases hm : |latestExD - toDays ex - daysBack| ≤ 3
        · rw [if_pos hm] at h
          simp only [Except.ok.injEq, Option.some.injEq] at h
          subst h
          exact ⟨⟨ex, hp, hm⟩, [], rest, rfl, by simp⟩
        · rw [if_neg hm] at h
          obtain ⟨hpm, pre, post, hl, hpre⟩ := ih r h
          refine ⟨hpm, r0 :: pre, post, by rw [hl]; rfl, ?_⟩
          intro x hx
          rcases List.mem_cons.mp hx with hx | hx
          · subst hx
            rintro ⟨ex2, hp2, hm2⟩
            rw [hp] at hp2
            cases hp2
            exact hm hm2
          · exact hpre x hx
  · intro l
    induction l with
    | nil => intro _ x hx; exact absurd hx (by simp)
    | cons r0 rest ih =>
      intro h x hx
      simp only [findPrior] at h
      cases hp : parseISO (r0.ex_div.getD ("")) with
      | none =>
        rw [hp] at h
        exact absurd h (by simp)
      | some ex =>
        rw [hp] at h
        dsimp only at h
        by_cases hm : |latestExD - toDays ex - daysBack| ≤ 3
        · rw [if_pos hm] at h
          exact absurd h (by simp)
        · rw [if_neg hm] at h
          rcases List.mem_cons.mp hx with hx | hx
          · subst hx
            rintro ⟨ex2, hp2, hm2⟩
            rw [hp] at hp2
            cases hp2
            exact hm hm2
          · exact ih h x hx

/-- C5 witness: with anchor 2024-01-10 and `days_back = 7`, the entry dated
2024-01-03 matches the window. -/
theorem find_prior_spec_witness :
    priorMatch (toDays ⟨2024, 1, 10⟩) 7
      ⟨("2024-01-01"), some ("2024-01-03"), none, none, none⟩ :=
  ((find_prior_spec (toDays ⟨2024, 1, 10⟩) 7).1
    [⟨("2024-01-01"), some ("2024-01-03"), none, none, none⟩] _ (by rfl)).1

/-- Filtering with a weaker predicate keeps at least as many elements. -/
theorem filter_len_mono {α : Type} (p q : α → Bool) (h : ∀ a, p a = true → q a = true) :
    ∀ l : List α, (l.filter p).length ≤ (l.filter q).length := by
  intro l
  induction l with
  | nil => simp
  | cons a t ih =>
    by_cases hp : p a = true
    · rw [List.filter_cons_of_pos hp, List.filter_cons_of_pos (h a hp)]
      simpa using ih
    · rw [List.filter_cons_of_neg (by simpa using hp)]
      by_cases hq : q a = true
      · rw [List.filter_cons_of_pos hq]
        exact le_trans ih (by simp)
      · rw [List.filter_cons_of_neg (by simpa using hq)]
        exact ih

/-- The sorted-and-truthy-filtered timeline is no longer than the list of
entries with a non-null `ex_div`. -/
theorem filtered_sorted_le (l : List Row) :
    ((sortRows l).filter fun r => truthyStr r.ex_div).length ≤
      (l.filter fun r => r.ex_div.isSome).length := by
  have hperm : ((sortRows l).filter fun r => truthyStr r.ex_div).length =
      (l.filter fun r => truthyStr r.ex_div).length :=
    ((List.perm_insertionSort _ l).filter _).length_eq
  rw [hperm]
  refine filter_len_mono _ _ (fun r hr => ?_) l
  cases hx : r.ex_div <;> simp_all [truthyStr]

/-- C7: a ticker whose timeline has at most one entry with a non-null
ex-dividend date is skipped: the run returns with every one of the ten
derived fields still null. -/
theorem insufficient_history_null (today : ℤ) (t : String) (snaps : List Snapshot)
    (h : ((timelineFor t snaps).filter fun r => r.ex_div.isSome).length ≤ 1) :
    computeExDiv today (timelineFor t snaps) = Except.ok nullDerived ∧
    nullDerived.days_since_ex_div = none ∧
    nullDerived.price_chg_ex_1w_pct = none ∧
    nullDerived.dist_chg_ex_1w_pct = none ∧
    nullDerived.nav_chg_ex_1w_pct = none ∧
    nullDerived.price_chg_ex_1m_pct = none ∧
    nullDerived.dist_chg_ex_1m_pct = none ∧
    nullDerived.nav_chg_ex_1m_pct = none ∧
    nullDerived.dist_stability_score = none ∧
    nullDerived.dist_sum_8w = none ∧
    nullDerived.dist_slope_8w = none := by
  refine ⟨?_, rfl, rfl, rfl, rfl, rfl, rfl, rfl, rfl, rfl, rfl⟩
  have hle := filtered_sorted_le (timelineFor t snaps)
  by_cases he : (timelineFor t snaps).isEmpty = true
  · simp only [computeExDiv]
    rw [if_pos he]
  · simp only [computeExDiv]
    rw [if_neg he, if_pos (by omega)]

/-- C7 witness: a single weekly observation is insufficient history. -/
theorem insufficient_history_null_witness :
    computeExDiv 0 (timelineFor ("AAAW")
        [⟨("2024-01-01 00:00 UTC"),
          [⟨("AAAW"), some ("Weekly"), some ("2024-01-01"), none, none, none⟩]⟩]) =
      Except.ok nullDerived :=
  (insufficient_history_null 0 ("AAAW") _ (by decide)).1

/-- `find_prior` cannot raise when every scanned entry's date parses. -/
theorem findPrior_ok (latestExD daysBack : ℤ) (l : List Row)
    (hp : ∀ x ∈ l, (parseISO (x.ex_div.getD (""))).isSome = true) :
    ∃ o, findPrior latestExD daysBack l = Except.ok o := by
  induction l with
  | nil => exact ⟨none, rfl⟩
  | cons r rest ih =>
    have hr := hp r (by simp)
    cases hx : parseISO (r.ex_div.getD ("")) with
    | none => rw [hx] at hr; exact absurd hr (by simp)
    | some ex =>
      by_cases hm : |latestExD - toDays ex - daysBack| ≤ 3
      · refine ⟨some r, ?_⟩
        simp only [findPrior, hx]
        rw [if_pos hm]
      · obtain ⟨o, ho⟩ := ih fun x hx2 => hp x (by simp [hx2])
        refine ⟨o, ?_⟩
        simp only [findPrior, hx]
        rw [if_neg hm]
        exact ho

/-- C2 amended: the anchor is the last element of the run-date-sorted,
truthy-filtered timeline (greatest `run_date`, not necessarily greatest
`ex_div_date`), and `days_since_ex_div` is `today` minus that entry's
ex-dividend date in days, which may be negative for a future-scheduled date. -/
theorem anchor_by_run_date_amended (today : ℤ) (rows0 : List Row) (latest : Row)
    (d : CivDate)
    (hlen : 2 ≤ ((sortRows rows0).filter fun r => truthyStr r.ex_div).length)
    (hlast : ((sortRows rows0).filter fun r => truthyStr r.ex_div).getLast? = some latest)
    (hparse : ∀ x ∈ (sortRows rows0).filter fun r => truthyStr r.ex_div,
        (parseISO (x.ex_div.getD (""))).isSome = true)
    (hd : parseISO (latest.ex_div.getD ("")) = some d) :
    ∃ der, computeExDiv today rows0 = Except.ok der ∧
      der.days_since_ex_div = some (today - toDays d) := by
  have hparse2 : ∀ x ∈ ((sortRows rows0).filter fun r => truthyStr r.ex_div).dropLast.reverse,
      (parseISO (x.ex_div.getD (""))).isSome = true := by
    intro x hx
    refine hparse x ?_
    exact (List.dropLast_sublist _).subset (List.mem_reverse.mp hx)
  obtain ⟨oW, hoW⟩ := findPrior_ok (toDays d) 7 _ hparse2
  obtain ⟨oM, hoM⟩ := findPrior_ok (toDays d) 30 _ hparse2
  have hne : ¬ (rows0.isEmpty = true) := by
    intro habs
    rw [List.isEmpty_iff] at habs
    subst habs
    simp [sortRows] at hlen
  refine ⟨mkDerived today (toDays d) latest oW oM
    (last8Dists ((sortRows rows0).filter fun r => truthyStr r.ex_div)), ?_, rfl⟩
  simp only [computeExDiv]
  rw [if_neg hne, if_neg (by omega), hlast]
  dsimp only
  rw [hd]
  dsimp only
  rw [hoW, hoM]

/-- C2 amended witness: the anchor is the entry of the latest run, and a
future-scheduled ex-dividend date yields a negative `days_since_ex_div`. -/
theorem anchor_by_run_date_amended_witness :
    ∃ der, computeExDiv (toDays ⟨2024, 1, 5⟩)
        [⟨("2024-01-01"), some ("2024-01-08"), none, none, none⟩,
         ⟨("2024-01-02"), some ("2024-01-10"), none, none, none⟩] = Except.ok der ∧
      der.days_since_ex_div = some (-5) := by
  have h := anchor_by_run_date_amended (toDays ⟨2024, 1, 5⟩)
    [⟨("2024-01-01"), some ("2024-01-08"), none, none, none⟩,
     ⟨("2024-01-02"), some ("2024-01-10"), none, none, none⟩]
    ⟨("2024-01-02"), some ("2024-01-10"), none, none, none⟩ ⟨2024, 1, 10⟩
    (by decide) (by decide) (by decide) (by decide)
  rwa [show toDays ⟨2024, 1, 5⟩ - toDays ⟨2024, 1, 10⟩ = -5 by decide] at h
